import Mathlib

/-!
Verification of the Anchormotors ACC project (platoon simulation with an
FSM-based adaptive cruise controller).

The Python sources are shallowly embedded over exact rationals: every
float value of the source is represented by the rational with the same
decimal literal, mutation of controller / vehicle objects becomes
explicit state passing, and Python lists become Lean lists.

Embedded components:
* `ACCController` (test/fleet_test/acc_controller.py): parameters, FSM,
  moving-average filters, per-state control laws, post-processing.
* `OurController` and `IntelligentDriverModel`
  (test/large_scale/controller.py).
* `Car` and the three-phase `Simulation` loop
  (test/large_scale/car.py, simulation.py), parametric in the controller
  step function, with `float('inf')` gaps embedded as `⊤ : WithTop ℚ`.
* `Vehicle.update` and the sequential back-to-front update loop of
  `FleetSimulation.run` (test/fleet_test/fleet_test.py).
* `Simulation.compute_metrics`' string-stability index
  (test/large_scale/simulation.py).
-/

set_option linter.unusedVariables false

/-- Embedding of `ACCController._clamp(value, min_val, max_val)`:
`max(min_val, min(max_val, value))`. -/
def clampQ (value min_val max_val : ℚ) : ℚ :=
  max min_val (min max_val value)

/-- FSM states of `ACCController` (class ACCState, acc_controller.py). -/
inductive ACCState : Type
  | NO_WAVE
  | INTO_WAVE
  | IN_WAVE
  | OUT_OF_WAVE
deriving DecidableEq

/-- Embedding of the `ACCParameters` dataclass with its literal defaults
(13.5 = 27/2, 0.424 = 53/125, etc.). -/
structure ACCParams where
  no_wave_velo : ℚ := 27/2
  wave_velo : ℚ := 10
  max_velo : ℚ := 25
  alpha_no_wave : ℚ := 3/20
  tau_no_wave : ℚ := 2
  beta_no_wave : ℚ := 53/125
  alpha_into_wave : ℚ := 7/10
  tau_into_wave : ℚ := 12/5
  beta_into_wave : ℚ := 23/100
  alpha_in_wave : ℚ := 1/5
  tau_in_wave : ℚ := 5/2
  beta_in_wave : ℚ := 7/20
  alpha_out_wave : ℚ := 11/10
  tau_out_wave : ℚ := 12/5
  beta_out_wave : ℚ := 6/25
  desired_distance : ℚ := 10
  max_accel : ℚ := 3/2
  max_decel : ℚ := -3
  speed_limit : ℚ := 35
  far_distance : ℚ := 200
  close_distance : ℚ := 75
  filter_coeff : ℚ := 13/20
  ma_window : ℕ := 10
  sample_rate : ℚ := 20
  accel_threshold_neg_high : ℚ := -(1/2)
  accel_threshold_neg_low : ℚ := -(1/4)
  accel_threshold_pos_low : ℚ := 1/4
  accel_threshold_pos_high : ℚ := 1/2
deriving DecidableEq

/-- The default `ACCParameters()` object. -/
def defaultACCParams : ACCParams := {}

/-- Mutable state of an `ACCController` instance (everything
`__init__` / `reset` touch; the immutable `params` are passed
separately to every function, mirroring `self.params`). -/
structure ACCCtrl where
  state : ACCState
  initialized : Bool
  lead_vel_buffer : List ℚ
  lead_accel_buffer : List ℚ
  buffer_idx : ℕ
  buffer_sum_vel : ℚ
  buffer_sum_accel : ℚ
  prev_lead_vel_combined : ℚ
  prev_cmd_accel_filtered : ℚ
  lead_vel_smooth : ℚ
  lead_accel_smooth : ℚ
deriving DecidableEq

/-- State built by `ACCController.__init__` (buffers zero-filled with
`np.zeros(ma_window)`). -/
def initCtrl (p : ACCParams) : ACCCtrl where
  state := ACCState.NO_WAVE
  initialized := false
  lead_vel_buffer := List.replicate p.ma_window 0
  lead_accel_buffer := List.replicate p.ma_window 0
  buffer_idx := 0
  buffer_sum_vel := 0
  buffer_sum_accel := 0
  prev_lead_vel_combined := 0
  prev_cmd_accel_filtered := 0
  lead_vel_smooth := 0
  lead_accel_smooth := 0

/-- Embedding of `ACCController.reset`: `.fill(0.0)` zeroes the existing
buffers in place, keeping their lengths. -/
def resetCtrl (s : ACCCtrl) : ACCCtrl where
  state := ACCState.NO_WAVE
  initialized := false
  lead_vel_buffer := List.replicate s.lead_vel_buffer.length 0
  lead_accel_buffer := List.replicate s.lead_accel_buffer.length 0
  buffer_idx := 0
  buffer_sum_vel := 0
  buffer_sum_accel := 0
  prev_lead_vel_combined := 0
  prev_cmd_accel_filtered := 0
  lead_vel_smooth := 0
  lead_accel_smooth := 0

/-- Embedding of `ACCController._moving_average_update` (the shared
cursor `self.buffer_idx` and window `self.params.ma_window` are passed
explicitly; the mutated buffer is returned).
Returns `(average, new_sum, new_buffer)`. -/
def movingAverageUpdate (new_val : ℚ) (buffer : List ℚ) (buffer_sum : ℚ)
    (idx window : ℕ) : ℚ × ℚ × List ℚ :=
  let old_val := buffer.getD idx 0
  let s := buffer_sum - old_val + new_val
  let buf := buffer.set idx new_val
  (s / (window : ℚ), s, buf)

/-- Embedding of `ACCController._update_filters`. -/
def updateFilters (p : ACCParams) (s : ACCCtrl) (lead_dist rel_vel ego_vel : ℚ) :
    ACCCtrl :=
  let lead_vel_combined := ego_vel + rel_vel
  let lead_accel_raw := (lead_vel_combined - s.prev_lead_vel_combined) * p.sample_rate
  let lead_accel_sat := clampQ lead_accel_raw (-(7/2)) 2
  let mv := movingAverageUpdate lead_vel_combined s.lead_vel_buffer
    s.buffer_sum_vel s.buffer_idx p.ma_window
  let ma := movingAverageUpdate lead_accel_sat s.lead_accel_buffer
    s.buffer_sum_accel s.buffer_idx p.ma_window
  { s with
    lead_vel_smooth := mv.1
    buffer_sum_vel := mv.2.1
    lead_vel_buffer := mv.2.2
    lead_accel_smooth := ma.1
    buffer_sum_accel := ma.2.1
    lead_accel_buffer := ma.2.2
    buffer_idx := (s.buffer_idx + 1) % p.ma_window
    prev_lead_vel_combined := lead_vel_combined }

/-- The state chosen by `ACCController._update_state` (pure part):
first-call branch when `initialized` is false, otherwise the mode
transition chains of the source, in source order (first match wins). -/
def nextStateOf (p : ACCParams) (s : ACCCtrl) (lead_dist : ℚ) : ACCState :=
  if s.initialized = false then
    if s.lead_vel_smooth > p.no_wave_velo ∨ lead_dist > 200 then
      ACCState.NO_WAVE
    else
      ACCState.IN_WAVE
  else
    match s.state with
    | ACCState.NO_WAVE =>
        if (s.lead_accel_smooth < p.accel_threshold_neg_high ∧
              s.lead_vel_smooth < p.no_wave_velo ∧ lead_dist < 200) ∨
            (s.lead_vel_smooth < p.no_wave_velo ∧ lead_dist < p.close_distance) then
          ACCState.INTO_WAVE
        else s.state
    | ACCState.INTO_WAVE =>
        if s.lead_vel_smooth ≤ p.wave_velo then ACCState.IN_WAVE
        else if s.lead_accel_smooth ≥ p.accel_threshold_pos_low then ACCState.OUT_OF_WAVE
        else if lead_dist > p.far_distance then ACCState.NO_WAVE
        else s.state
    | ACCState.IN_WAVE =>
        if s.lead_accel_smooth > p.accel_threshold_pos_high ∧
            s.lead_vel_smooth > p.wave_velo then ACCState.OUT_OF_WAVE
        else if lead_dist > p.far_distance then ACCState.NO_WAVE
        else s.state
    | ACCState.OUT_OF_WAVE =>
        if s.lead_vel_smooth > p.no_wave_velo ∨ lead_dist > p.far_distance then
          ACCState.NO_WAVE
        else if s.lead_accel_smooth ≤ p.accel_threshold_neg_low then ACCState.INTO_WAVE
        else s.state

/-- Embedding of `ACCController._update_state`: on the first-call branch
the source sets `self.initialized = True`; on every other branch
`initialized` is already `True`, so the result always has
`initialized = true`. -/
def updateState (p : ACCParams) (s : ACCCtrl) (lead_dist : ℚ) : ACCCtrl :=
  { s with state := nextStateOf p s lead_dist, initialized := true }

/-- Embedding of `ACCController._calculate_control` (`0.333` is the
literal of the source, i.e. 333/1000; the dead `else: 0.0` branch of the
source has no counterpart since the four-state enum is exhaustive). -/
def calcControl (p : ACCParams) (s : ACCCtrl) (lead_dist rel_vel ego_vel : ℚ) : ℚ :=
  match s.state with
  | ACCState.NO_WAVE =>
      let desired_vel := min p.max_velo 35
      let vel_error := desired_vel - ego_vel
      let vel_error_sat := clampQ vel_error 0 3
      let vel_approach := (333/1000) * vel_error_sat
      let vel_limiter := min vel_approach 1
      let distance_accel :=
        (lead_dist - p.desired_distance - p.tau_no_wave * rel_vel) * p.alpha_no_wave +
          p.beta_no_wave * ego_vel
      let distance_accel_sat := clampQ distance_accel p.max_decel p.max_accel
      vel_limiter * distance_accel_sat
  | ACCState.INTO_WAVE =>
      (lead_dist - p.desired_distance - p.tau_into_wave * rel_vel) * p.alpha_into_wave +
        p.beta_into_wave * ego_vel
  | ACCState.IN_WAVE =>
      clampQ
        ((lead_dist - p.desired_distance - p.tau_in_wave * rel_vel) * p.alpha_in_wave +
          p.beta_in_wave * ego_vel)
        p.max_decel p.max_accel
  | ACCState.OUT_OF_WAVE =>
      (lead_dist - p.desired_distance - p.tau_out_wave * rel_vel) * p.alpha_out_wave +
        p.beta_out_wave * ego_vel

/-- Embedding of `ACCController._post_process`
(speed limiter, hard saturation, low-pass filter, final saturation).
Returns the command and the updated state. -/
def postProcess (p : ACCParams) (s : ACCCtrl) (cmd_accel ego_vel : ℚ) : ℚ × ACCCtrl :=
  let c1 := if ego_vel ≥ p.speed_limit then min cmd_accel 0 else cmd_accel
  let c2 := clampQ c1 p.max_decel p.max_accel
  let f := s.prev_cmd_accel_filtered + p.filter_coeff * (c2 - s.prev_cmd_accel_filtered)
  let f2 := clampQ f p.max_decel p.max_accel
  (f2, { s with prev_cmd_accel_filtered := f2 })

/-- One input sample to `ACCController.step`:
`(lead_dist, rel_vel, ego_vel)`. -/
structure Inp where
  dist : ℚ
  rel : ℚ
  ego : ℚ
deriving DecidableEq

/-- Embedding of `ACCController.step`:
filters, state machine, control law, post-processing, in source order.
Returns `((cmd_accel_final, state), new_controller_state)`. -/
def accStep (p : ACCParams) (s : ACCCtrl) (i : Inp) : (ℚ × ACCState) × ACCCtrl :=
  let s1 := updateFilters p s i.dist i.rel i.ego
  let s2 := updateState p s1 i.dist
  let cmd := calcControl p s2 i.dist i.rel i.ego
  let r := postProcess p s2 cmd i.ego
  ((r.1, r.2.state), r.2)

/-- State reached after feeding a list of inputs to `step`. -/
def runAcc (p : ACCParams) (s : ACCCtrl) (l : List Inp) : ACCCtrl :=
  l.foldl (fun st i => (accStep p st i).2) s

/-- The `(acceleration, mode)` output sequence of successive `step`
calls on an input list. -/
def accOutputs (p : ACCParams) (s : ACCCtrl) : List Inp → List (ℚ × ACCState)
  | [] => []
  | i :: t =>
      let r := accStep p s i
      r.1 :: accOutputs p r.2 t

/-- A controller state reachable from a freshly constructed
`ACCController(params)` by some sequence of `step` calls. -/
def ACCReachable (p : ACCParams) (s : ACCCtrl) : Prop :=
  ∃ l : List Inp, s = runAcc p (initCtrl p) l

/-- Modes of `OurController` (class Mode, controller.py). -/
inductive OurMode : Type
  | INITIAL
  | NO_WAVE
  | INTO_WAVE
  | IN_WAVE
  | OUT_OF_WAVE
deriving DecidableEq

/-- Mutable state of an `OurController` instance. -/
structure OurCtrl where
  cmd_accel_history : List ℚ
  lead_velocity_history : List ℚ
  lead_velocity_derivative_history : List ℚ
  modes_history : List OurMode
  mode : OurMode
deriving DecidableEq

/-- `OurController.__init__`: `cmd_accel_history = [0]`, empty
histories, mode `INITIAL`. -/
def initOur : OurCtrl where
  cmd_accel_history := [0]
  lead_velocity_history := []
  lead_velocity_derivative_history := []
  modes_history := []
  mode := OurMode.INITIAL

/-- Python slice `l[-n:]` (last at most `n` elements). -/
def lastN {α : Type} (n : ℕ) (l : List α) : List α :=
  l.drop (l.length - n)

/-- Mean of a list, `sum(l) / len(l)`. -/
def meanQ (l : List ℚ) : ℚ := l.sum / (l.length : ℚ)

/-- Lead-velocity history after the `append` at the start of
`OurController.classification` (`lead_velocity = ego + rel`). -/
def ourLeadVelHist (s : OurCtrl) (ego rel : ℚ) : List ℚ :=
  s.lead_velocity_history ++ [ego + rel]

/-- The saturated discrete derivative appended by `classification`:
`(hist[-1] - hist[-2]) / time_step` when the history has more than one
entry, else 0, then `max(min(2.0, d), -3.5)`. -/
def ourDerivSat (s : OurCtrl) (ego rel ts : ℚ) : ℚ :=
  let lvh := ourLeadVelHist s ego rel
  let d :=
    if 1 < lvh.length then
      (lvh.getLastD 0 - s.lead_velocity_history.getLastD 0) / ts
    else 0
  max (min 2 d) (-(7/2))

/-- Derivative history after the `append` in `classification`. -/
def ourDerivHist (s : OurCtrl) (ego rel ts : ℚ) : List ℚ :=
  s.lead_velocity_derivative_history ++ [ourDerivSat s ego rel ts]

/-- `lead_velocity_moving_average`: mean of the last 10 entries of the
(just extended) lead-velocity history. -/
def ourVelMA (s : OurCtrl) (ego rel : ℚ) : ℚ :=
  meanQ (lastN 10 (ourLeadVelHist s ego rel))

/-- `lead_acceleration_moving_average`: mean of the last 10 entries of
the (just extended) derivative history. -/
def ourAccMA (s : OurCtrl) (ego rel ts : ℚ) : ℚ :=
  meanQ (lastN 10 (ourDerivHist s ego rel ts))

/-- Embedding of `OurController.classification` (controller.py).
Arguments follow the Python signature:
`(ego_velocity, space_gap, relative_velocity, max_velocity,
no_wave_velocity, wave_velocity, time_step)`. -/
def classification (s : OurCtrl) (ego gap rel maxv nwv wv ts : ℚ) :
    OurMode × OurCtrl :=
  let lv := ego + rel
  let lvh := ourLeadVelHist s ego rel
  let dvh := ourDerivHist s ego rel ts
  let velMA := ourVelMA s ego rel
  let accMA := ourAccMA s ego rel ts
  let newMode :=
    match s.mode with
    | OurMode.INITIAL =>
        if lv > nwv ∨ gap > 200 then OurMode.NO_WAVE
        else if lv ≤ nwv ∧ gap ≤ 200 then OurMode.IN_WAVE
        else s.mode
    | OurMode.NO_WAVE =>
        if (accMA < -(1/2) ∧ lv < nwv ∧ gap < 200) ∨ (lv < nwv ∧ gap < 75) then
          OurMode.INTO_WAVE
        else s.mode
    | OurMode.INTO_WAVE =>
        if velMA ≤ wv then OurMode.IN_WAVE
        else if accMA ≥ 1/4 then OurMode.OUT_OF_WAVE
        else if gap > 200 then OurMode.NO_WAVE
        else s.mode
    | OurMode.IN_WAVE =>
        if accMA > 1/2 ∧ lv > wv then OurMode.OUT_OF_WAVE
        else if gap > 200 then OurMode.NO_WAVE
        else s.mode
    | OurMode.OUT_OF_WAVE =>
        if velMA > nwv then OurMode.NO_WAVE
        else if accMA ≤ -(1/4) then OurMode.INTO_WAVE
        else if gap > 200 then OurMode.NO_WAVE
        else s.mode
  (newMode,
    { s with
      lead_velocity_history := lvh
      lead_velocity_derivative_history := dvh
      mode := newMode })

/-- Embedding of `OurController.no_wave` (literals: alpha 0.15,
s_min 10, tau 2.0, beta 0.424; note the source applies tau to
`ego_velocity` and beta to `relative_velocity`). -/
def ourNoWave (ego gap rel maxv : ℚ) : ℚ :=
  let max_velo := min 35 maxv
  let soft_velocity_a := min 1 ((1/3) * min 3 (max 0 (max_velo - ego)))
  let soft_velocity_b :=
    min (3/2) (max (-3) ((3/20) * (gap - 10 - ego * 2) + (53/125) * rel))
  min (3/2) (max (-3) (soft_velocity_a * soft_velocity_b))

/-- Embedding of `OurController.into_wave`. -/
def ourIntoWave (ego gap rel : ℚ) : ℚ :=
  (7/10) * (gap - 10 - (12/5) * ego) + (23/100) * rel

/-- Embedding of `OurController.in_wave`. -/
def ourInWave (ego gap rel : ℚ) : ℚ :=
  min (3/2) (max (-3) ((1/5) * (gap - 10 - ego * (5/2)) + rel * (7/20)))

/-- Embedding of `OurController.out_of_wave`. -/
def ourOutOfWave (ego gap rel : ℚ) : ℚ :=
  (11/10) * (gap - 10 - (12/5) * ego) + (6/25) * rel

/-- Embedding of `OurController.command_acceleration`:
classification, per-mode target, clamp, speed limiter at the literal 35,
first-order filter against `cmd_accel_history[-1]` with beta 0.65,
history append, final clamp. -/
def ourCommandAcceleration (s : OurCtrl) (ego gap rel maxv nwv wv ts : ℚ) :
    ℚ × OurCtrl :=
  let c := classification s ego gap rel maxv nwv wv ts
  let mode := c.1
  let s1 := c.2
  let s2 := { s1 with modes_history := s1.modes_history ++ [mode] }
  let cmd_accel_target :=
    match mode with
    | OurMode.NO_WAVE => ourNoWave ego gap rel maxv
    | OurMode.INTO_WAVE => ourIntoWave ego gap rel
    | OurMode.IN_WAVE => ourInWave ego gap rel
    | OurMode.OUT_OF_WAVE => ourOutOfWave ego gap rel
    | OurMode.INITIAL => 0
  let t2 := max (-3) (min (3/2) cmd_accel_target)
  let t3 := if ego ≥ 35 then min t2 0 else t2
  let accel_t_minus_one := s2.cmd_accel_history.getLastD 0
  let cmd_accel := (13/20) * (t3 - accel_t_minus_one) + accel_t_minus_one
  let s3 := { s2 with cmd_accel_history := s2.cmd_accel_history ++ [cmd_accel] }
  (max (-3) (min (3/2) cmd_accel), s3)

/-- `max(0.0, ego_velocity)` of `IntelligentDriverModel`. -/
def idmEgoFloor (ego_velocity : ℚ) : ℚ := max 0 ego_velocity

/-- `max(0.1, space_gap)` of `IntelligentDriverModel`
(prevents division by zero). -/
def idmGapFloor (space_gap : ℚ) : ℚ := max (1/10) space_gap

/-- Embedding of `IntelligentDriverModel.command_acceleration`
(controller.py). Exact square roots are not rational, so `math.sqrt` is
modeled by the parameter `sqrtFn`; the `except OverflowError` branch of
the source (a floating-point event that cannot occur in exact
arithmetic) is modeled by the Boolean `overflowed` selecting the
`-5.0` fallback. -/
def idmCommandAcceleration (sqrtFn : ℚ → ℚ) (overflowed : Bool)
    (ego_velocity space_gap relative_velocity max_velocity : ℚ) : ℚ :=
  let v0 := max_velocity
  let T : ℚ := 3/2
  let s0 : ℚ := 5
  let a : ℚ := 1
  let b : ℚ := 2
  let ego := idmEgoFloor ego_velocity
  let gap := idmGapFloor space_gap
  let rel := -relative_velocity
  let ab := max (1/1000000) (a * b)
  let s_star := s0 + max 0 (ego * T + (ego * rel) / (2 * sqrtFn ab))
  let dv_dt :=
    if overflowed then (-5 : ℚ)
    else a * (1 - (ego / v0) ^ (4 : ℕ) - (s_star / gap) ^ (2 : ℕ))
  max (-3) (min (3/2) dv_dt)

/-- Controller step capability used by `Car.compute_acceleration`:
`command_acceleration(velocity, space_gap, relative_velocity,
max_velocity)` acting on controller state `σ`. A gap of
`float('inf')` (no lead car) is `⊤ : WithTop ℚ`. -/
abbrev CtrlFun (σ : Type) : Type :=
  σ → ℚ → WithTop ℚ → ℚ → ℚ → ℚ × σ

/-- Embedding of a `Car` object (test/large_scale/car.py): scalar state,
its controller state, and the five history lists. -/
structure LCar (σ : Type) where
  position : ℚ
  velocity : ℚ
  max_velocity : ℚ
  ctrl : σ
  positions : List ℚ
  velocities : List ℚ
  cmd_accels : List ℚ
  space_gaps : List (WithTop ℚ)
  relative_velocities : List ℚ
  current_gap : WithTop ℚ
  current_rel_vel : ℚ
deriving DecidableEq

/-- Embedding of `Car.__init__`; `lead` carries the lead car's
`(position, velocity)` at construction time, `none` meaning no lead. -/
def mkLCar {σ : Type} (ctrl : σ) (v0 x0 : ℚ) (lead : Option (ℚ × ℚ))
    (maxv : ℚ) : LCar σ :=
  let gap : WithTop ℚ :=
    match lead with
    | none => ⊤
    | some lc => ((lc.1 - x0 : ℚ) : WithTop ℚ)
  let rel_vel : ℚ :=
    match lead with
    | none => 0
    | some lc => lc.2 - v0
  { position := x0
    velocity := v0
    max_velocity := maxv
    ctrl := ctrl
    positions := [x0]
    velocities := [v0]
    cmd_accels := []
    space_gaps := [gap]
    relative_velocities := [rel_vel]
    current_gap := gap
    current_rel_vel := rel_vel }

/-- Embedding of `Car.compute_acceleration`; `lead` carries the lead
car's current `(position, velocity)` (`none` = no lead: infinite gap,
zero relative velocity). Returns the commanded acceleration and the
car with its `current_gap`, `current_rel_vel` and controller state
updated. -/
def computeAcceleration {σ : Type} (stepF : CtrlFun σ) (c : LCar σ)
    (lead : Option (ℚ × ℚ)) : ℚ × LCar σ :=
  let gap : WithTop ℚ :=
    match lead with
    | none => ⊤
    | some lc => ((lc.1 - c.position : ℚ) : WithTop ℚ)
  let rel_vel : ℚ :=
    match lead with
    | none => 0
    | some lc => lc.2 - c.velocity
  let r := stepF c.ctrl c.velocity gap rel_vel c.max_velocity
  (r.1, { c with current_gap := gap, current_rel_vel := rel_vel, ctrl := r.2 })

/-- Embedding of `Car.apply_update`: Euler step, velocity floored at 0,
position advanced with the just-updated velocity. -/
def applyUpdate {σ : Type} (c : LCar σ) (accel dt : ℚ) : LCar σ :=
  let v1 := c.velocity + accel * dt
  let v2 := max v1 0
  { c with velocity := v2, position := c.position + v2 * dt }

/-- Embedding of `Car.record_history`. -/
def recordHistory {σ : Type} (c : LCar σ) (accel : ℚ) : LCar σ :=
  { c with
    positions := c.positions ++ [c.position]
    velocities := c.velocities ++ [c.velocity]
    cmd_accels := c.cmd_accels ++ [accel]
    space_gaps := c.space_gaps ++ [c.current_gap]
    relative_velocities := c.relative_velocities ++ [c.current_rel_vel] }

/-- The `(position, velocity)` of car `i`'s lead reference inside the
pre-step car list: `none` for car 0, car `i-1` otherwise (in
`Simulation.__init__` each follower's `lead_car` is the car created
just before it). -/
def leadInfo {σ : Type} (cars : List (LCar σ)) (i : ℕ) : Option (ℚ × ℚ) :=
  if i = 0 then none
  else (cars[i-1]?).map fun c => (c.position, c.velocity)

/-- Phase 1 of the simulation loop: compute every car's acceleration
from the pre-step states, walking the chain with each car's
predecessor's pre-step `(position, velocity)`. -/
def simStepCompute {σ : Type} (stepF : CtrlFun σ) :
    Option (ℚ × ℚ) → List (LCar σ) → List (ℚ × LCar σ)
  | _, [] => []
  | lead, c :: rest =>
      computeAcceleration stepF c lead ::
        simStepCompute stepF (some (c.position, c.velocity)) rest

/-- One iteration of the loop in `Simulation.__init__`:
compute all accelerations (phase 1), then apply all updates (phase 2),
then record all histories (phase 3). Phases 2 and 3 only touch each
car's own state, so they are fused into one pass over the phase-1
output. -/
def simStep {σ : Type} (stepF : CtrlFun σ) (dt : ℚ) (cars : List (LCar σ)) :
    List (LCar σ) :=
  (simStepCompute stepF none cars).map fun pr =>
    recordHistory (applyUpdate pr.2 pr.1 dt) pr.1

/-- `n` iterations of the simulation loop. -/
def simRun {σ : Type} (stepF : CtrlFun σ) (dt : ℚ) (cars : List (LCar σ)) :
    ℕ → List (LCar σ)
  | 0 => cars
  | n + 1 => simStep stepF dt (simRun stepF dt cars n)

/-- The five history lengths of a `Car`:
`(positions, velocities, cmd_accels, space_gaps, relative_velocities)`. -/
def histLens {σ : Type} (c : LCar σ) : ℕ × ℕ × ℕ × ℕ × ℕ :=
  (c.positions.length, c.velocities.length, c.cmd_accels.length,
    c.space_gaps.length, c.relative_velocities.length)

/-- Controller step capability of the fleet test's `Vehicle`
(`controller.step(lead_dist, rel_vel, ego_vel)` for ACC vehicles,
`driver.step(lead_dist, rel_vel, ego_vel, dt)` for human drivers). -/
abbrev FCtrlFun (σ : Type) : Type :=
  σ → ℚ → ℚ → ℚ → ℚ × σ

/-- Embedding of a fleet-test `Vehicle` (test/fleet_test/fleet_test.py). -/
structure FVehicle (σ : Type) where
  position : ℚ
  velocity : ℚ
  acceleration : ℚ
  dt : ℚ
  ctrl : σ
deriving DecidableEq

/-- Embedding of `Vehicle.update`: acceleration from the controller
(or the cruise law when there is no lead), then
`velocity = max(0, velocity + accel*dt)` and
`position += velocity*dt`. -/
def fvUpdate {σ : Type} (stepF : FCtrlFun σ) (v : FVehicle σ)
    (lead : Option (ℚ × ℚ)) : FVehicle σ :=
  match lead with
  | none =>
      let a0 := (1/2) * (25 - v.velocity)
      let a := max (-3) (min (3/2) a0)
      let vel := max 0 (v.velocity + a * v.dt)
      { v with acceleration := a, velocity := vel, position := v.position + vel * v.dt }
  | some lc =>
      let lead_dist := lc.1 - v.position
      let rel_vel := lc.2 - v.velocity
      let r := stepF v.ctrl lead_dist rel_vel v.velocity
      let a := r.1
      let vel := max 0 (v.velocity + a * v.dt)
      { v with ctrl := r.2, acceleration := a, velocity := vel,
               position := v.position + vel * v.dt }

/-- The lead `(position, velocity)` a fleet vehicle reads during its
update: the head of the already-updated suffix of the chain, or the
external lead vehicle when it is the last of the platoon. -/
def fleetLeadOf {σ : Type} (lead_position lead_velocity : ℚ)
    (updated : List (FVehicle σ)) : ℚ × ℚ :=
  match updated with
  | [] => (lead_position, lead_velocity)
  | w :: _ => (w.position, w.velocity)

/-- The inner loop of `FleetSimulation.run`
(`for i in range(n_vehicles - 1, -1, -1)`): vehicles are updated one by
one from the front of the platoon (highest index) backwards, each
reading its leader's already-updated same-step state. The list is
ordered by vehicle index, so the recursion updates the tail (the
vehicles ahead) first. -/
def fleetChainUpdate {σ : Type} (stepF : FCtrlFun σ)
    (lead_position lead_velocity : ℚ) : List (FVehicle σ) → List (FVehicle σ)
  | [] => []
  | v :: rest =>
      let rest' := fleetChainUpdate stepF lead_position lead_velocity rest
      fvUpdate stepF v (some (fleetLeadOf lead_position lead_velocity rest')) :: rest'

/-- One step of `FleetSimulation.run`: the external lead position is
advanced first (`lead_position += lead_velocity * dt`), then the chain
is updated front to back against it. -/
def fleetStep {σ : Type} (stepF : FCtrlFun σ) (dt lead_position lead_velocity : ℚ)
    (vehs : List (FVehicle σ)) : ℚ × List (FVehicle σ) :=
  let lp := lead_position + lead_velocity * dt
  (lp, fleetChainUpdate stepF lp lead_velocity vehs)

/-- `np.max(np.abs(l))` for the (always nonempty in the source) error
arrays; folding `max |x|` from 0 agrees with the numpy value since all
`|x|` are nonnegative. -/
def maxAbs (l : List ℚ) : ℚ :=
  l.foldr (fun x m => max |x| m) 0

/-- The spacing-error arrays of `Simulation.compute_metrics` for the
followers: each car's gaps minus the mean of the previous car's gaps
(the loop reads `np.mean(self.cars[i-1].space_gaps)`). -/
def spacingErrorsAux (prev : List ℚ) : List (List ℚ) → List (List ℚ)
  | [] => []
  | g :: t => g.map (fun x => x - meanQ prev) :: spacingErrorsAux g t

/-- All spacing-error arrays of `Simulation.compute_metrics`:
`np.zeros_like(gaps)` for the lead car, then the follower errors. -/
def spacingErrors : List (List ℚ) → List (List ℚ)
  | [] => []
  | g0 :: t => g0.map (fun _ => (0 : ℚ)) :: spacingErrorsAux g0 t

/-- Python `max(l)` for the ratio list, with the source's
`if string_stability_ratios else 0` guard for the empty case. -/
def pyMax (l : List ℚ) : ℚ :=
  match l with
  | [] => 0
  | x :: xs => xs.foldl max x

/-- The amplification ratios of `Simulation.compute_metrics`
(`curr_max_error / (prev_max_error + 1e-6)` for consecutive cars). -/
def stabRatios (errs : List (List ℚ)) : List ℚ :=
  (errs.zip errs.tail).map fun pr => maxAbs pr.2 / (maxAbs pr.1 + 1/1000000)

/-- Embedding of the `string_stability_index` computation of
`Simulation.compute_metrics`, as a function of the cars' gap
histories. -/
def stringStabilityIndex (gapss : List (List ℚ)) : ℚ :=
  pyMax (stabRatios (spacingErrors gapss))

/-- The spacing error at index `i` of the source computation, written
with direct indexing: zero for the lead car, gaps minus the mean of the
previous car's gaps otherwise. -/
def srcSpacingErrorAt (gapss : List (List ℚ)) (i : ℕ) : List ℚ :=
  if i = 0 then (gapss.getD 0 []).map (fun _ => (0 : ℚ))
  else (gapss.getD i []).map (fun x => x - meanQ (gapss.getD (i-1) []))

/-- Modelled from the spec (claim C8's formula, for comparison with
the source): spacing error = gap minus that vehicle's OWN mean gap over
the run, and the metric is the maximum over i ≥ 1 of the plain ratio of
consecutive maximum absolute errors (no 1e-6 guard). -/
def claimedSpacingError (gaps : List ℚ) : List ℚ :=
  gaps.map (fun x => x - meanQ gaps)

/-- Modelled from the spec (claim C8's metric); see
`claimedSpacingError`. -/
def claimedStringStability (gapss : List (List ℚ)) : ℚ :=
  let errs := gapss.map claimedSpacingError
  pyMax ((errs.zip errs.tail).map fun pr => maxAbs pr.2 / maxAbs pr.1)

/-- Modelled from the spec (claim C5's formula, for comparison with the
source): `min(1, (1/3)·clamp(maxVelocity − ego, 0, 3))` times
`clamp(alpha·(dist − desiredDistance − tau·relVel) + beta·ego,
maxDecel, maxAccel)` with the NO_WAVE gains. -/
def claimedNoWaveFormula (p : ACCParams) (lead_dist rel_vel ego_vel : ℚ) : ℚ :=
  min 1 ((1/3) * clampQ (p.max_velo - ego_vel) 0 3) *
    clampQ
      ((lead_dist - p.desired_distance - p.tau_no_wave * rel_vel) * p.alpha_no_wave +
        p.beta_no_wave * ego_vel)
      p.max_decel p.max_accel

/-- Invariant of the velocity moving-average filter after `k` constant
inputs of combined lead velocity `v` into a window of size `w`. -/
def VelInv (w : ℕ) (v : ℚ) (k : ℕ) (s : ACCCtrl) : Prop :=
  s.lead_vel_buffer = List.replicate k v ++ List.replicate (w - k) 0 ∧
  s.buffer_sum_vel = (k : ℚ) * v ∧
  s.buffer_idx = k % w ∧
  (k = 0 ∨ s.lead_vel_smooth = ((k : ℚ) * v) / (w : ℚ))

/-- The ACC `step` wrapped as a fleet-test controller step with the
default parameters (a `FleetSimulation` ACC vehicle constructs
`ACCController(params, dt)` and calls `step(lead_dist, rel_vel,
ego_vel)`). -/
def accCtrlFun : FCtrlFun ACCCtrl := fun s lead_dist rel_vel ego_vel =>
  let r := accStep defaultACCParams s ⟨lead_dist, rel_vel, ego_vel⟩
  (r.1.1, r.2)

/-- A trivial controller step (always commands 0) used only to
instantiate controller-parametric theorems at concrete inputs. -/
def zeroCtrlFun : CtrlFun Unit := fun s _ _ _ _ => ((0 : ℚ), s)

/-- A concrete leader car used in witnesses. -/
def witnessCar : LCar Unit := mkLCar () 20 0 none 35

/-- Inputs driving a default `ACCController` into `OUT_OF_WAVE`
(lead speeding up: combined lead velocity 40, 40.1, 40.2 at 100 m). -/
def c4AccInputs : List Inp :=
  [⟨100, 40, 0⟩, ⟨100, 401/10, 0⟩, ⟨100, 201/5, 0⟩]

/-- The `OUT_OF_WAVE` controller state reached by `c4AccInputs`. -/
def c4AccState : ACCCtrl :=
  runAcc defaultACCParams (initCtrl defaultACCParams) c4AccInputs

/-- One `classification` call with the Python default parameters
(`max_velocity=35, no_wave_velocity=13.5, wave_velocity=10,
time_step=0.1`), keeping only the state. -/
def ourClassStep (s : OurCtrl) (t : ℚ × ℚ × ℚ) : OurCtrl :=
  (classification s t.1 t.2.1 t.2.2 35 (27/2) 10 (1/10)).2

/-- An `OurController` state in mode `OUT_OF_WAVE`, reached by two
classification calls: `(ego, gap, rel) = (0, 100, 12)` then
`(0, 100, 12.2)`. -/
def c4OurState : OurCtrl :=
  ([((0 : ℚ), (100 : ℚ), (12 : ℚ)), (0, 100, 61/5)] :
    List (ℚ × ℚ × ℚ)).foldl ourClassStep initOur

/-- A non-fresh ACC controller state used in the C10 witness. -/
def c10State : ACCCtrl :=
  (accStep defaultACCParams (initCtrl defaultACCParams) ⟨50, 1, 2⟩).2


/-! ### Helper lemmas -/

attribute [local semireducible] Rat.add Rat.mul Rat.sub Rat.inv Rat.ofScientific

lemma le_clampQ (v lo hi : ℚ) : lo ≤ clampQ v lo hi :=
  le_max_left _ _

lemma clampQ_le (v lo hi : ℚ) (h : lo ≤ hi) : clampQ v lo hi ≤ hi :=
  max_le h (min_le_left _ _)

lemma min_max_swap (lo hi x : ℚ) (h : lo ≤ hi) :
    min hi (max lo x) = max lo (min hi x) := by
  rcases le_total x lo with h1 | h1
  · rw [max_eq_left h1, min_eq_right h, min_eq_right (h1.trans h), max_eq_left h1]
  · rcases le_total x hi with h2 | h2
    · rw [max_eq_right h1, min_eq_right h2, max_eq_right h1]
    · rw [max_eq_right h1, min_eq_left h2, max_eq_right h]

/-! ### C1 -/

/-- C1: for every `ACCController.step` with parameters satisfying
`max_decel ≤ max_accel`, any inputs and any internal state (hence any
reachable one), the post-processed command lies in
`[max_decel, max_accel]`; likewise `OurController.command_acceleration`
always returns a value in `[-3, 1.5]` (its fixed limits). -/
theorem C1_post_process_bounds :
    (∀ (p : ACCParams), p.max_decel ≤ p.max_accel → ∀ (s : ACCCtrl) (i : Inp),
        p.max_decel ≤ (accStep p s i).1.1 ∧ (accStep p s i).1.1 ≤ p.max_accel) ∧
    (∀ (s : OurCtrl) (ego gap rel maxv nwv wv ts : ℚ),
        -3 ≤ (ourCommandAcceleration s ego gap rel maxv nwv wv ts).1 ∧
        (ourCommandAcceleration s ego gap rel maxv nwv wv ts).1 ≤ 3/2) := by
  constructor
  · intro p h s i
    exact ⟨le_clampQ _ _ _, clampQ_le _ _ _ h⟩
  · intro s ego gap rel maxv nwv wv ts
    exact ⟨le_max_left _ _, max_le (by norm_num) (min_le_left _ _)⟩

/-- Witness for C1 at the default parameters, the fresh controller
state and the input `(50, 1, 2)`. -/
theorem C1_post_process_bounds_witness :
    defaultACCParams.max_decel ≤ defaultACCParams.max_accel ∧
    (defaultACCParams.max_decel ≤
        (accStep defaultACCParams (initCtrl defaultACCParams) ⟨50, 1, 2⟩).1.1 ∧
      (accStep defaultACCParams (initCtrl defaultACCParams) ⟨50, 1, 2⟩).1.1 ≤
        defaultACCParams.max_accel) :=
  ⟨by decide,
    C1_post_process_bounds.1 defaultACCParams (by decide)
      (initCtrl defaultACCParams) ⟨50, 1, 2⟩⟩

/-! ### C2 -/

/-- C2: velocity is floored at 0 immediately after each Euler velocity
update — for `Car.apply_update`, for the fleet test's `Vehicle.update`
(with or without a lead vehicle, for any controller), and hence for
every vehicle after every step of every `Simulation` run. -/
theorem C2_velocity_nonneg :
    (∀ (σ : Type) (c : LCar σ) (accel dt : ℚ),
        0 ≤ (applyUpdate c accel dt).velocity) ∧
    (∀ (σ : Type) (stepF : FCtrlFun σ) (v : FVehicle σ) (lead : Option (ℚ × ℚ)),
        0 ≤ (fvUpdate stepF v lead).velocity) ∧
    (∀ (σ : Type) (stepF : CtrlFun σ) (dt : ℚ) (cars : List (LCar σ)) (n : ℕ)
        (c : LCar σ), c ∈ simRun stepF dt cars (n + 1) → 0 ≤ c.velocity) := by
  refine ⟨fun σ c accel dt => le_max_right _ _, fun σ stepF v lead => ?_,
    fun σ stepF dt cars n c hc => ?_⟩
  · cases lead with
    | none => exact le_max_left _ _
    | some lc => exact le_max_left _ _
  · simp only [simRun, simStep, List.mem_map] at hc
    obtain ⟨pr, -, rfl⟩ := hc
    exact le_max_right _ _

/-- Witness for C2's run-level clause: one step of a one-car simulation
with the trivial controller. -/
theorem C2_velocity_nonneg_witness :
    ((simRun zeroCtrlFun (1/20) [witnessCar] 1).headD witnessCar ∈
        simRun zeroCtrlFun (1/20) [witnessCar] (0 + 1)) ∧
    0 ≤ ((simRun zeroCtrlFun (1/20) [witnessCar] 1).headD witnessCar).velocity :=
  ⟨by decide,
    C2_velocity_nonneg.2.2 Unit zeroCtrlFun (1/20) [witnessCar] 0 _ (by decide)⟩

/-! ### C7 -/

/-- C7: `IntelligentDriverModel.command_acceleration` is total: for any
ego velocity, any space gap (including zero or negative), any relative
velocity, any `max_velocity`, any overflow outcome and any square-root
value, the result lies in `[-3, 1.5]`; the floored gap is strictly
positive (the divisor of the interaction term is never zero) and the
floored ego velocity is nonnegative; the overflow fallback `-5.0`
clamps to `-3`. -/
theorem C7_idm_total_bounds :
    ∀ (sqrtFn : ℚ → ℚ) (overflowed : Bool) (ego gap rel maxv : ℚ),
      (-3 ≤ idmCommandAcceleration sqrtFn overflowed ego gap rel maxv ∧
        idmCommandAcceleration sqrtFn overflowed ego gap rel maxv ≤ 3/2) ∧
      0 < idmGapFloor gap ∧ 0 ≤ idmEgoFloor ego ∧
      idmCommandAcceleration sqrtFn true ego gap rel maxv = -3 := by
  intro sqrtFn overflowed ego gap rel maxv
  refine ⟨⟨le_max_left _ _, max_le (by norm_num) (min_le_left _ _)⟩,
    lt_of_lt_of_le (by norm_num) (le_max_left _ _), le_max_left _ _, ?_⟩
  show max (-3 : ℚ) (min (3/2) (-5)) = -3
  norm_num

/-! ### C10 -/

lemma resetCtrl_eq_init (p : ACCParams) (s : ACCCtrl)
    (h1 : s.lead_vel_buffer.length = p.ma_window)
    (h2 : s.lead_accel_buffer.length = p.ma_window) :
    resetCtrl s = initCtrl p := by
  simp [resetCtrl, initCtrl, h1, h2]

/-- C10: `reset()` restores an `ACCController` exactly to its
post-construction state (the buffers of any controller built with these
parameters have length `ma_window`, which `reset` preserves), so after
a reset the `(acceleration, mode)` output sequence on any input
sequence coincides with that of a freshly constructed controller. -/
theorem C10_reset_equiv_fresh (p : ACCParams) (s : ACCCtrl) (l : List Inp)
    (h1 : s.lead_vel_buffer.length = p.ma_window)
    (h2 : s.lead_accel_buffer.length = p.ma_window) :
    accOutputs p (resetCtrl s) l = accOutputs p (initCtrl p) l := by
  rw [resetCtrl_eq_init p s h1 h2]

/-- Witness for C10: a controller that has taken one step, reset, then
run on a one-element input list. -/
theorem C10_reset_equiv_fresh_witness :
    (c10State.lead_vel_buffer.length = defaultACCParams.ma_window ∧
      c10State.lead_accel_buffer.length = defaultACCParams.ma_window) ∧
    accOutputs defaultACCParams (resetCtrl c10State) [⟨10, 0, 5⟩] =
      accOutputs defaultACCParams (initCtrl defaultACCParams) [⟨10, 0, 5⟩] :=
  ⟨⟨by decide, by decide⟩,
    C10_reset_equiv_fresh defaultACCParams c10State [⟨10, 0, 5⟩]
      (by decide) (by decide)⟩

/-! ### C5 -/

/-- C5 counterexample: at `(dist, relVel, ego) = (100, 0, 22)` with
default parameters and mode NO_WAVE, the source's raw command is
`min(0.333·3, 1) · 1.5 = 0.999 · 1.5 = 1.4985`, while the claimed
formula (`1/3` instead of the literal `0.333`) gives `1 · 1.5 = 1.5`. -/
theorem C5_no_wave_counterexample :
    (initCtrl defaultACCParams).state = ACCState.NO_WAVE ∧
    calcControl defaultACCParams (initCtrl defaultACCParams) 100 0 22 = 2997/2000 ∧
    claimedNoWaveFormula defaultACCParams 100 0 22 = 3/2 ∧
    ((2997 : ℚ)/2000) ≠ 3/2 := by
  refine ⟨by decide, by decide, by decide, by decide⟩

/-- C5 (amended): the ACC NO_WAVE raw command equals
`min(0.333·clamp(min(maxVelocity, 35) − ego, 0, 3), 1)` times
`clamp(alpha·(dist − desiredDistance − tau·relVel) + beta·ego,
maxDecel, maxAccel)` — the factor uses the literal `0.333` (not `1/3`)
and the velocity target `min(maxVelocity, 35)`; and
`OurController.no_wave` equals the clamped product of
`min(1, (1/3)·clamp(min(35, maxVelocity) − ego, 0, 3))` with
`clamp(alpha·(gap − 10 − tau·ego) + beta·relVel, −3, 1.5)` — there tau
multiplies the EGO velocity and beta the relative velocity. -/
theorem C5_no_wave_formula :
    (∀ (p : ACCParams) (s : ACCCtrl) (lead_dist rel_vel ego_vel : ℚ),
        s.state = ACCState.NO_WAVE →
        calcControl p s lead_dist rel_vel ego_vel =
          min ((333/1000) * clampQ (min p.max_velo 35 - ego_vel) 0 3) 1 *
            clampQ
              ((lead_dist - p.desired_distance - p.tau_no_wave * rel_vel) *
                  p.alpha_no_wave + p.beta_no_wave * ego_vel)
              p.max_decel p.max_accel) ∧
    (∀ (ego gap rel maxv : ℚ),
        ourNoWave ego gap rel maxv =
          clampQ
            (min 1 ((1/3) * clampQ (min 35 maxv - ego) 0 3) *
              clampQ ((3/20) * (gap - 10 - ego * 2) + (53/125) * rel) (-3) (3/2))
            (-3) (3/2)) := by
  constructor
  · intro p s lead_dist rel_vel ego_vel h
    obtain ⟨st, c2, c3, c4, c5, c6, c7, c8, c9, c10a, c11⟩ := s
    cases h
    rfl
  · intro ego gap rel maxv
    have h1 : ∀ x : ℚ, min (3/2) (max (-3) x) = max (-3) (min (3/2) x) :=
      fun x => min_max_swap _ _ _ (by norm_num)
    have h2 : ∀ x : ℚ, min 3 (max 0 x) = max 0 (min 3 x) :=
      fun x => min_max_swap _ _ _ (by norm_num)
    simp only [ourNoWave, clampQ, h1, h2]

/-- Witness for C5's amended ACC clause at the fresh (NO_WAVE) state
and input `(50, 2, 10)`. -/
theorem C5_no_wave_formula_witness :
    (initCtrl defaultACCParams).state = ACCState.NO_WAVE ∧
    calcControl defaultACCParams (initCtrl defaultACCParams) 50 2 10 =
      min ((333/1000) * clampQ (min defaultACCParams.max_velo 35 - 10) 0 3) 1 *
        clampQ
          ((50 - defaultACCParams.desired_distance - defaultACCParams.tau_no_wave * 2) *
              defaultACCParams.alpha_no_wave + defaultACCParams.beta_no_wave * 10)
          defaultACCParams.max_decel defaultACCParams.max_accel :=
  ⟨by decide,
    C5_no_wave_formula.1 defaultACCParams (initCtrl defaultACCParams) 50 2 10 (by decide)⟩

/-! ### C4 -/

lemma accStep_initialized (p : ACCParams) (s : ACCCtrl) (i : Inp) :
    ((accStep p s i).2).initialized = true := rfl

lemma runAcc_cons_initialized (p : ACCParams) :
    ∀ (l : List Inp) (s : ACCCtrl) (i : Inp),
      (runAcc p s (i :: l)).initialized = true := by
  intro l
  induction l with
  | nil => intro s i; exact accStep_initialized p s i
  | cons j t ih => intro s i; exact ih (accStep p s i).2 j

lemma reachable_out_initialized (p : ACCParams) (s : ACCCtrl)
    (hr : ACCReachable p s) (hs : s.state = ACCState.OUT_OF_WAVE) :
    s.initialized = true := by
  obtain ⟨l, rfl⟩ := hr
  cases l with
  | nil => exact ACCState.noConfusion hs
  | cons i t => exact runAcc_cons_initialized p t (initCtrl p) i

/-- C4 (amended): in any reachable `ACCController` state with mode
OUT_OF_WAVE, the next mode is NO_WAVE when
`smoothedVel > no_wave_velo OR dist > far_distance`, else INTO_WAVE
when `smoothedAccel ≤ accel_threshold_neg_low` (default −0.25), else
unchanged — exactly as the claim states. `OurController`, however,
checks the acceleration condition BEFORE the `gap > 200` condition:
from OUT_OF_WAVE it goes to NO_WAVE when `velMA > no_wave_velocity`,
else to INTO_WAVE when `accMA ≤ −0.25`, else to NO_WAVE when
`gap > 200`, else stays. -/
theorem C4_out_of_wave_transitions :
    (∀ (p : ACCParams) (s : ACCCtrl), ACCReachable p s →
        s.state = ACCState.OUT_OF_WAVE → ∀ (i : Inp),
        (accStep p s i).1.2 =
          (if (updateFilters p s i.dist i.rel i.ego).lead_vel_smooth > p.no_wave_velo ∨
              i.dist > p.far_distance then
            ACCState.NO_WAVE
          else if (updateFilters p s i.dist i.rel i.ego).lead_accel_smooth ≤
              p.accel_threshold_neg_low then
            ACCState.INTO_WAVE
          else ACCState.OUT_OF_WAVE)) ∧
    (∀ (s : OurCtrl) (ego gap rel maxv nwv wv ts : ℚ),
        s.mode = OurMode.OUT_OF_WAVE →
        (classification s ego gap rel maxv nwv wv ts).1 =
          (if ourVelMA s ego rel > nwv then OurMode.NO_WAVE
          else if ourAccMA s ego rel ts ≤ -(1/4) then OurMode.INTO_WAVE
          else if gap > 200 then OurMode.NO_WAVE
          else OurMode.OUT_OF_WAVE)) := by
  constructor
  · intro p s hr hs i
    have hinit : s.initialized = true := reachable_out_initialized p s hr hs
    have hf1 : (updateFilters p s i.dist i.rel i.ego).initialized = true := hinit
    have hf2 : (updateFilters p s i.dist i.rel i.ego).state = ACCState.OUT_OF_WAVE := hs
    show nextStateOf p (updateFilters p s i.dist i.rel i.ego) i.dist = _
    rw [nextStateOf, hf1, hf2]
    simp
  · intro s ego gap rel maxv nwv wv ts h
    simp only [classification, h]

/-- Witness for C4's ACC clause at the reachable OUT_OF_WAVE state
`c4AccState` and input `(300, 0, 0)`. -/
theorem C4_out_of_wave_transitions_witness :
    c4AccState.state = ACCState.OUT_OF_WAVE ∧
    (accStep defaultACCParams c4AccState ⟨300, 0, 0⟩).1.2 =
      (if (updateFilters defaultACCParams c4AccState 300 0 0).lead_vel_smooth >
          defaultACCParams.no_wave_velo ∨ (300 : ℚ) > defaultACCParams.far_distance then
        ACCState.NO_WAVE
      else if (updateFilters defaultACCParams c4AccState 300 0 0).lead_accel_smooth ≤
          defaultACCParams.accel_threshold_neg_low then
        ACCState.INTO_WAVE
      else ACCState.OUT_OF_WAVE) :=
  ⟨by decide,
    C4_out_of_wave_transitions.1 defaultACCParams c4AccState
      ⟨c4AccInputs, rfl⟩ (by decide) ⟨300, 0, 0⟩⟩

/-- C4 counterexample (for `OurController.classification`, cited by the
claim): `c4OurState` is in mode OUT_OF_WAVE; on the input
`(ego, gap, rel) = (0, 300, 8)` the gap exceeds `far_distance = 200`
and the smoothed velocity does not exceed `no_wave_velocity = 13.5`, so
the claim's first (dist) rule demands NO_WAVE — but the source checks
`accMA ≤ −0.25` first and transitions to INTO_WAVE. -/
theorem C4_out_of_wave_counterexample :
    c4OurState.mode = OurMode.OUT_OF_WAVE ∧
    ((300 : ℚ) > 200) ∧ ¬(ourVelMA c4OurState 0 8 > 27/2) ∧
    ourAccMA c4OurState 0 8 (1/10) ≤ -(1/4) ∧
    (classification c4OurState 0 300 8 35 (27/2) 10 (1/10)).1 = OurMode.INTO_WAVE ∧
    OurMode.INTO_WAVE ≠ OurMode.NO_WAVE := by
  refine ⟨by decide, by decide, by decide, by decide, by decide, by decide⟩

/-! ### C3 -/

lemma simStepCompute_getElem? {σ : Type} (stepF : CtrlFun σ) :
    ∀ (cars : List (LCar σ)) (lead : Option (ℚ × ℚ)) (i : ℕ),
      (simStepCompute stepF lead cars)[i]? =
        (cars[i]?).map fun c =>
          computeAcceleration stepF c
            (if i = 0 then lead
             else (cars[i-1]?).map fun d => (d.position, d.velocity)) := by
  intro cars
  induction cars with
  | nil => intro lead i; simp [simStepCompute]
  | cons c rest ih =>
      intro lead i
      cases i with
      | zero => simp [simStepCompute]
      | succ j =>
          simp only [simStepCompute, List.getElem?_cons_succ]
          rw [ih (some (c.position, c.velocity)) j]
          cases j with
          | zero => simp
          | succ k => simp

/-- C3 (amended): in the large_scale `Simulation` every car's command
in a step is computed from the PRE-step positions/velocities of itself
and its lead reference, all computes preceding all updates (two-phase);
in `FleetSimulation.run`, however, vehicles are updated sequentially
from the front of the platoon backwards, and each vehicle's command is
computed against its leader's already-updated same-step state (the
head of the updated suffix, or the externally advanced lead). -/
theorem C3_update_ordering :
    (∀ (σ : Type) (stepF : CtrlFun σ) (dt : ℚ) (cars : List (LCar σ)) (i : ℕ),
        (simStep stepF dt cars)[i]? =
          (cars[i]?).map fun c =>
            recordHistory
              (applyUpdate (computeAcceleration stepF c (leadInfo cars i)).2
                (computeAcceleration stepF c (leadInfo cars i)).1 dt)
              (computeAcceleration stepF c (leadInfo cars i)).1) ∧
    (∀ (σ : Type) (stepF : FCtrlFun σ) (lead_position lead_velocity : ℚ)
        (v : FVehicle σ) (rest : List (FVehicle σ)),
        fleetChainUpdate stepF lead_position lead_velocity (v :: rest) =
          fvUpdate stepF v
              (some (fleetLeadOf lead_position lead_velocity
                (fleetChainUpdate stepF lead_position lead_velocity rest))) ::
            fleetChainUpdate stepF lead_position lead_velocity rest) := by
  constructor
  · intro σ stepF dt cars i
    simp only [simStep, List.getElem?_map, simStepCompute_getElem?, leadInfo,
      Option.map_map]
    rfl
  · intro σ stepF lead_position lead_velocity v rest
    rfl

/-- C3 counterexample: a one-ACC-vehicle fleet step with the external
lead at position 14 moving at 2 m/s and dt = 0.05. The vehicle's
recorded command is −0.117 (computed against the already-advanced lead
position 14.1), whereas the command computed from the PREVIOUS step's
lead position 14 would be −0.13 — the follower reacts to its leader's
same-step motion, contradicting the claim for `FleetSimulation.run`. -/
theorem C3_update_ordering_counterexample :
    ((fleetStep accCtrlFun (1/20) 14 2
        [{ position := 0, velocity := 0, acceleration := 0, dt := 1/20,
           ctrl := initCtrl defaultACCParams }]).2.map fun v => v.acceleration) =
      [-(117/1000)] ∧
    (accStep defaultACCParams (initCtrl defaultACCParams) ⟨14 - 0, 2 - 0, 0⟩).1.1 =
      -(13/100) ∧
    (-(117/1000) : ℚ) ≠ -(13/100) := by
  refine ⟨by decide, by decide, by decide⟩

/-! ### C9 -/

lemma simStepCompute_mem {σ : Type} (stepF : CtrlFun σ) :
    ∀ (cars : List (LCar σ)) (lead : Option (ℚ × ℚ)) (pr : ℚ × LCar σ),
      pr ∈ simStepCompute stepF lead cars →
      ∃ c ∈ cars, ∃ ld, pr = computeAcceleration stepF c ld := by
  intro cars
  induction cars with
  | nil => intro lead pr h; simp [simStepCompute] at h
  | cons c rest ih =>
      intro lead pr h
      simp only [simStepCompute, List.mem_cons] at h
      rcases h with h | h
      · exact ⟨c, List.mem_cons_self _ _, lead, h⟩
      · obtain ⟨c', hc', ld, hpr⟩ := ih _ pr h
        exact ⟨c', List.mem_cons_of_mem _ hc', ld, hpr⟩

lemma simStep_mem_histLens {σ : Type} (stepF : CtrlFun σ) (dt : ℚ)
    (cars : List (LCar σ)) (c : LCar σ) (hc : c ∈ simStep stepF dt cars) :
    ∃ c0 ∈ cars, histLens c =
      (c0.positions.length + 1, c0.velocities.length + 1, c0.cmd_accels.length + 1,
        c0.space_gaps.length + 1, c0.relative_velocities.length + 1) := by
  simp only [simStep, List.mem_map] at hc
  obtain ⟨pr, hpr, rfl⟩ := hc
  obtain ⟨c0, hc0, ld, rfl⟩ := simStepCompute_mem stepF cars _ pr hpr
  refine ⟨c0, hc0, ?_⟩
  simp [histLens, recordHistory, applyUpdate, computeAcceleration]

/-- C9 (amended): every history grows by exactly one entry per
simulation step; after `n` steps the `positions`, `velocities`,
`space_gaps` and `relative_velocities` histories all contain an initial
entry (length `n+1`) — `Car.__init__` appends an initial gap and
relative velocity — and only `cmd_accels` lacks one (length `n`). -/
theorem C9_history_lengths :
    ∀ (σ : Type) (stepF : CtrlFun σ) (dt : ℚ) (cars : List (LCar σ)) (n : ℕ),
      (∀ c0 ∈ cars, histLens c0 = (1, 1, 0, 1, 1)) →
      ∀ c ∈ simRun stepF dt cars n,
        histLens c = (n + 1, n + 1, n, n + 1, n + 1) := by
  intro σ stepF dt cars n
  induction n with
  | zero => intro h c hc; simpa using h c hc
  | succ m ih =>
      intro h c hc
      obtain ⟨c0, hc0, hlen⟩ := simStep_mem_histLens stepF dt _ c hc
      have h0 := ih h c0 hc0
      simp only [histLens, Prod.mk.injEq] at h0
      obtain ⟨e1, e2, e3, e4, e5⟩ := h0
      rw [hlen, e1, e2, e3, e4, e5]

/-- C9 counterexample: a one-step, one-car run in which the space-gap
history has length 2 (it contains the initial gap recorded by
`Car.__init__`), not length `n = 1` as the claim states. -/
theorem C9_history_length_counterexample :
    ((simRun zeroCtrlFun (1/20) [witnessCar] 1).map fun c => c.space_gaps.length) =
      [2] ∧ (2 : ℕ) ≠ 1 := by
  refine ⟨by decide, by decide⟩

/-- Witness for C9's amended statement: two steps of a one-car run. -/
theorem C9_history_lengths_witness :
    (∀ c0 ∈ [witnessCar], histLens c0 = (1, 1, 0, 1, 1)) ∧
    histLens ((simRun zeroCtrlFun (1/20) [witnessCar] 2).headD witnessCar) =
      (3, 3, 2, 3, 3) :=
  ⟨by decide,
    C9_history_lengths Unit zeroCtrlFun (1/20) [witnessCar] 2 (by decide) _ (by decide)⟩

/-! ### C8 -/

lemma spacingErrorsAux_length :
    ∀ (t : List (List ℚ)) (prev : List ℚ),
      (spacingErrorsAux prev t).length = t.length := by
  intro t
  induction t with
  | nil => intro prev; rfl
  | cons g t' ih => intro prev; simp [spacingErrorsAux, ih]

lemma spacingErrors_length (gapss : List (List ℚ)) :
    (spacingErrors gapss).length = gapss.length := by
  cases gapss with
  | nil => rfl
  | cons g0 t => simp [spacingErrors, spacingErrorsAux_length]

lemma spacingErrorsAux_getD :
    ∀ (t : List (List ℚ)) (prev : List ℚ) (i : ℕ),
      (spacingErrorsAux prev t).getD i [] =
        (t.getD i []).map fun x => x - meanQ ((prev :: t).getD i []) := by
  intro t
  induction t with
  | nil => intro prev i; simp [spacingErrorsAux]
  | cons g t' ih =>
      intro prev i
      cases i with
      | zero => simp [spacingErrorsAux]
      | succ j => simpa [spacingErrorsAux] using ih g j

lemma spacingErrors_getD (gapss : List (List ℚ)) (i : ℕ) :
    (spacingErrors gapss).getD i [] = srcSpacingErrorAt gapss i := by
  cases gapss with
  | nil => cases i <;> simp [spacingErrors, srcSpacingErrorAt]
  | cons g0 t =>
      cases i with
      | zero => simp [spacingErrors, srcSpacingErrorAt]
      | succ j =>
          simp only [spacingErrors, List.getD_cons_succ, srcSpacingErrorAt,
            Nat.succ_ne_zero, if_false, Nat.succ_sub_one]
          rw [spacingErrorsAux_getD]

lemma stabRatios_eq_range :
    ∀ (errs : List (List ℚ)),
      stabRatios errs =
        (List.range (errs.length - 1)).map fun j =>
          maxAbs (errs.getD (j+1) []) / (maxAbs (errs.getD j []) + 1/1000000) := by
  intro errs
  induction errs with
  | nil => rfl
  | cons x l ih =>
      cases l with
      | nil => rfl
      | cons y t =>
          simp only [stabRatios, List.tail_cons, List.zip_cons_cons,
            List.map_cons] at ih ⊢
          rw [ih]
          simp [List.length_cons, List.range_succ_eq_map, List.map_map,
            Function.comp, List.getD_cons_succ]

/-- C8 (amended): the string-stability index equals the maximum over
followers i ≥ 1 of `maxAbs(err_i) / (maxAbs(err_{i−1}) + 1e-6)`, where
`err_0` is identically zero (the lead car) and for i ≥ 1 `err_i` is
vehicle i's gap history minus the mean of vehicle i−1's (the PREVIOUS
vehicle's, not its own) gap history. -/
theorem C8_string_stability_formula (gapss : List (List ℚ)) :
    stringStabilityIndex gapss =
      pyMax ((List.range (gapss.length - 1)).map fun j =>
        maxAbs (srcSpacingErrorAt gapss (j+1)) /
          (maxAbs (srcSpacingErrorAt gapss j) + 1/1000000)) := by
  unfold stringStabilityIndex
  rw [stabRatios_eq_range, spacingErrors_length]
  exact congrArg pyMax (List.map_congr_left fun j hj => by
    rw [spacingErrors_getD, spacingErrors_getD])

/-- C8 counterexample: with gap histories `[[0, 2], [2, 4]]` the source
metric is `3 / (0 + 1e-6) = 3000000` (the lead car's error array is
zeroed and follower errors subtract the PREVIOUS car's mean gap = 1),
while the claim's own-mean formula gives `1 / 1 = 1`. -/
theorem C8_string_stability_counterexample :
    stringStabilityIndex [[0, 2], [2, 4]] = 3000000 ∧
    claimedStringStability [[0, 2], [2, 4]] = 1 ∧
    (3000000 : ℚ) ≠ 1 := by
  refine ⟨by decide, by decide, by decide⟩

/-! ### C6 -/

lemma getD_rep_append (k : ℕ) (v x d : ℚ) (t : List ℚ) :
    (List.replicate k v ++ x :: t).getD k d = x := by
  induction k with
  | zero => rfl
  | succ n ih =>
      simp only [List.replicate_succ, List.cons_append, List.getD_cons_succ]
      exact ih

lemma set_rep_append (k : ℕ) (v x : ℚ) (t : List ℚ) :
    (List.replicate k v ++ x :: t).set k v = List.replicate (k + 1) v ++ t := by
  induction k with
  | zero => simp [List.replicate_succ]
  | succ n ih =>
      simp only [List.replicate_succ, List.cons_append, List.set_cons_succ]
      rw [ih]
      simp [List.replicate_succ]

lemma velInv_step (p : ACCParams) (v : ℚ) (k : ℕ) (s : ACCCtrl) (i : Inp)
    (hk : k < p.ma_window) (hi : i.ego + i.rel = v)
    (h : VelInv p.ma_window v k s) :
    VelInv p.ma_window v (k + 1) ((accStep p s i).2) := by
  obtain ⟨hb, hsum, hidx, -⟩ := h
  have hidx' : s.buffer_idx = k := by rw [hidx]; exact Nat.mod_eq_of_lt hk
  have hw : p.ma_window - k = (p.ma_window - (k + 1)) + 1 := by omega
  refine ⟨?_, ?_, ?_, Or.inr ?_⟩
  · show s.lead_vel_buffer.set s.buffer_idx (i.ego + i.rel) = _
    rw [hidx', hb, hi, hw, List.replicate_succ, set_rep_append]
  · show s.buffer_sum_vel - s.lead_vel_buffer.getD s.buffer_idx 0 + (i.ego + i.rel) = _
    rw [hidx', hb, hsum, hi, hw, List.replicate_succ, getD_rep_append]
    push_cast
    ring
  · show (s.buffer_idx + 1) % p.ma_window = (k + 1) % p.ma_window
    rw [hidx']
  · show (s.buffer_sum_vel - s.lead_vel_buffer.getD s.buffer_idx 0 + (i.ego + i.rel)) /
        (p.ma_window : ℚ) = _
    rw [hidx', hb, hsum, hi, hw, List.replicate_succ, getD_rep_append]
    push_cast
    ring

lemma velInv_run (p : ACCParams) (v : ℚ) :
    ∀ (l : List Inp) (k : ℕ) (s : ACCCtrl),
      (∀ i ∈ l, i.ego + i.rel = v) → k + l.length ≤ p.ma_window →
      VelInv p.ma_window v k s →
      VelInv p.ma_window v (k + l.length) (runAcc p s l) := by
  intro l
  induction l with
  | nil => intro k s hall hle h; simpa [runAcc] using h
  | cons i t ih =>
      intro k s hall hle h
      have hk : k < p.ma_window := by
        simp only [List.length_cons] at hle; omega
      have h1 := velInv_step p v k s i hk (hall i (List.mem_cons_self _ _)) h
      have h2 := ih (k + 1) (accStep p s i).2
        (fun j hj => hall j (List.mem_cons_of_mem _ hj))
        (by simp only [List.length_cons] at hle ⊢; omega) h1
      have he : k + (i :: t).length = (k + 1) + t.length := by
        simp only [List.length_cons]; omega
      rw [he]
      exact h2

/-- C6: starting from a freshly constructed controller (buffers
pre-filled with zeros), after `ma_window ≥ 1` consecutive `step` calls
whose combined lead velocity `ego + rel` equals `v` on every call, the
smoothed lead velocity equals `v` exactly. -/
theorem C6_filter_convergence (p : ACCParams) (v : ℚ) (l : List Inp)
    (hw : 1 ≤ p.ma_window) (hlen : l.length = p.ma_window)
    (hall : ∀ i ∈ l, i.ego + i.rel = v) :
    (runAcc p (initCtrl p) l).lead_vel_smooth = v := by
  have h0 : VelInv p.ma_window v 0 (initCtrl p) :=
    ⟨by simp [initCtrl], by simp [initCtrl], by simp [initCtrl], Or.inl rfl⟩
  have hrun := velInv_run p v l 0 (initCtrl p) hall (by omega) h0
  obtain ⟨-, -, -, hsm⟩ := hrun
  rcases hsm with h | h
  · exfalso; omega
  · rw [h]
    have hlen' : (0 + l.length : ℕ) = p.ma_window := by omega
    rw [hlen']
    have hne : (p.ma_window : ℚ) ≠ 0 := Nat.cast_ne_zero.mpr (by omega)
    rw [mul_comm, mul_div_assoc, div_self hne, mul_one]

/-- Witness for C6 with window size 2 and constant combined lead
velocity 7. -/
theorem C6_filter_convergence_witness :
    (1 ≤ ({ defaultACCParams with ma_window := 2 } : ACCParams).ma_window ∧
      ([⟨50, 3, 4⟩, ⟨60, 2, 5⟩] : List Inp).length =
        ({ defaultACCParams with ma_window := 2 } : ACCParams).ma_window ∧
      ∀ i ∈ ([⟨50, 3, 4⟩, ⟨60, 2, 5⟩] : List Inp), i.ego + i.rel = 7) ∧
    (runAcc { defaultACCParams with ma_window := 2 }
        (initCtrl { defaultACCParams with ma_window := 2 })
        [⟨50, 3, 4⟩, ⟨60, 2, 5⟩]).lead_vel_smooth = 7 :=
  ⟨⟨by decide, by decide, by decide⟩,
    C6_filter_convergence { defaultACCParams with ma_window := 2 } 7
      [⟨50, 3, 4⟩, ⟨60, 2, 5⟩] (by decide) (by decide) (by decide)⟩
